import Mathlib

/-!
Verification of `dev-projects/gst-camera/src/main.rs` (an RTSP streaming server
built on a media factory) against its natural-language specification.

The first part shallowly embeds the program `main.rs`: the program's effects
(server/factory construction, configuration calls, attach, printing, running
the main loop) are recorded as an event trace, and the fallible environment
(whether `mount_points()` yields a value, whether `attach` succeeds, whether
library initialisation succeeds) is an explicit parameter.  Indexing `args[0]`
on an empty vector is a panic, modelled by a distinguished outcome.

The second part models, from the specification only, the mount-registry /
media-entry / session core that the specification designs around the example
(the spec states this core is not part of the example source).
-/

namespace GstCamera

/-- One observable effect performed by `main_loop` in `main.rs`. -/
inductive Event where
  | createMainLoop : Event
  | createServer : Event
  | getMountPoints : Bool → Event
  | createFactory : Event
  | setLaunch : String → Event
  | setShared : Bool → Event
  | addFactory : String → Event
  | attachServer : Bool → Event
  | printStreamReady : Event
  | runMainLoop : Event
  | removeAttachId : Event
  deriving DecidableEq, Repr

/-- The structured errors of `main.rs`: `UsageError(String)` and
`NoMountPoints`, plus the opaque errors of `gst::init()` and
`server.attach(None)` that are propagated through `anyhow`. -/
inductive AppError where
  | usageError : String → AppError
  | noMountPoints : AppError
  | gstInitError : String → AppError
  | attachError : String → AppError
  deriving DecidableEq, Repr

/-- The `Display` implementations: `UsageError` displays
`Usage: {_0} LAUNCH_LINE` and `NoMountPoints` displays
`Could not get mount points`; the opaque errors display their own message. -/
def AppError.display : AppError → String
  | .usageError prog => "Usage: " ++ prog ++ " LAUNCH_LINE"
  | .noMountPoints => "Could not get mount points"
  | .gstInitError m => m
  | .attachError m => m

/-- Outcome of `main_loop` / `example_main`: `Ok(())`, `Err(e)`, or a panic
(the out-of-bounds index `args[0]` on an empty argument vector). -/
inductive RunOutcome where
  | ok : RunOutcome
  | err : AppError → RunOutcome
  | panicked : RunOutcome
  deriving DecidableEq, Repr

/-- The fallible environment of one run: whether `gst::init()` succeeds,
whether `server.mount_points()` returns `Some`, whether `server.attach(None)`
succeeds, and the opaque messages of the latter two on failure. -/
structure Env where
  gstInitOk : Bool
  mountPointsOk : Bool
  attachOk : Bool
  gstInitErrMsg : String
  attachErrMsg : String

/-- An environment in which everything succeeds. -/
def envAllOk : Env :=
  { gstInitOk := true, mountPointsOk := true, attachOk := true,
    gstInitErrMsg := "", attachErrMsg := "" }

/-- Embedding of `main_loop` from `main.rs`.  The function collects the CLI
arguments; if their count differs from two it returns
`UsageError(args[0].clone())` — indexing `args[0]`, which panics on an empty
vector.  Otherwise it creates the glib main loop and the RTSP server, asks for
the server's mount points (failing with `NoMountPoints` if absent), creates a
media factory, calls `set_launch(args[1])` and `set_shared(true)` on it,
mounts it with `add_factory("/test", factory)`, attaches the server to the
default main context (propagating failure with `?`), prints the
`Stream ready` line, runs the main loop, and removes the attach source id
after the loop returns. -/
def main_loop (args : List String) (env : Env) : RunOutcome × List Event :=
  match args with
  | [] =>
      -- `args.len() != 2`, and `args[0]` on an empty vector panics
      (.panicked, [])
  | [_prog, launch] =>
      if env.mountPointsOk then
        if env.attachOk then
          (.ok,
           [Event.createMainLoop, Event.createServer, Event.getMountPoints true,
            Event.createFactory, Event.setLaunch launch, Event.setShared true,
            Event.addFactory "/test", Event.attachServer true,
            Event.printStreamReady, Event.runMainLoop, Event.removeAttachId])
        else
          (.err (.attachError env.attachErrMsg),
           [Event.createMainLoop, Event.createServer, Event.getMountPoints true,
            Event.createFactory, Event.setLaunch launch, Event.setShared true,
            Event.addFactory "/test", Event.attachServer false])
      else
        (.err .noMountPoints,
         [Event.createMainLoop, Event.createServer, Event.getMountPoints false])
  | prog :: _ =>
      -- `args.len() != 2` with a non-empty vector: usage error, nothing built
      (.err (.usageError prog), [])

/-- Embedding of `example_main`: `gst::init()?` then `main_loop()`. -/
def example_main (args : List String) (env : Env) : RunOutcome × List Event :=
  if env.gstInitOk then main_loop args env
  else (.err (.gstInitError env.gstInitErrMsg), [])

/-- Process-level result: normal exit with an exit code and the lines
printed to stderr, or a panic abort. -/
inductive ProcResult where
  | exit : Nat → List String → ProcResult
  | panicked : ProcResult
  deriving DecidableEq, Repr

/-- Embedding of `fn main()`: it matches `example_main()`, returning the unit
value on `Ok` and printing `Error! {e}` to stderr on `Err` — in both cases
`main` returns `()`, so the process exit code is `0`.  A panic aborts the
process instead. -/
def main (args : List String) (env : Env) : ProcResult :=
  match (example_main args env).1 with
  | .ok => .exit 0 []
  | .err e => .exit 0 ["Error! " ++ e.display]
  | .panicked => .panicked

/-- The strings passed to `set_launch`, in trace order. -/
def setLaunchStrings : List Event → List String
  | [] => []
  | .setLaunch s :: tr => s :: setLaunchStrings tr
  | _ :: tr => setLaunchStrings tr

/-- The paths passed to `add_factory`, in trace order. -/
def addFactoryPaths : List Event → List String
  | [] => []
  | .addFactory p :: tr => p :: addFactoryPaths tr
  | _ :: tr => addFactoryPaths tr

/-- `e1` occurs at a strictly earlier position than `e2` in the trace. -/
def occursBefore (tr : List Event) (e1 e2 : Event) : Prop :=
  ∃ i j : Nat, i < j ∧ tr.get? i = some e1 ∧ tr.get? j = some e2

/-- Whether a run result is a usage error. -/
def isUsageError : RunOutcome → Bool
  | .err (.usageError _) => true
  | _ => false

/-- Whether a process run exited with a non-zero code after printing at least
one error line. -/
def failsNonzeroWithMessage : ProcResult → Bool
  | .exit c msgs => decide (c ≠ 0) && !msgs.isEmpty
  | .panicked => false

end GstCamera

namespace Core

/-- Modelled from the spec: the MountRegistry / MediaEntry / SessionManager
core is described by the specification as a design that is not part of the
98-line example source.  `MediaDescriptor` is the immutable configuration for
one mount path: the path, the opaque pipeline description, the shared flag,
and an optional client limit. -/
structure MediaDescriptor where
  path : String
  launch_spec : String
  shared : Bool
  max_clients : Option Nat
  deriving DecidableEq, Repr

/-- Modelled from the spec: one live `MediaEntry` — the lifecycle record
wrapping one pipeline instance for a mount path together with the reference
count of attached sessions. -/
structure MediaEntry where
  path : String
  refcount : Nat
  deriving DecidableEq, Repr

/-- Modelled from the spec: the Dispatcher-serialized state of the core —
the registered descriptors keyed by path, the live entries keyed by an entry
id, the live-entry slot per shared path, the active sessions (session id
paired with the bound entry id), fresh-id counters and the number of
`prepare()` calls issued to the media engine. -/
structure CoreState where
  descriptors : String → Option MediaDescriptor
  entries : Nat → Option MediaEntry
  live : String → Option Nat
  sessions : List (Nat × Nat)
  nextEntryId : Nat
  nextSessionId : Nat
  prepareCalls : Nat

/-- The initial state: nothing registered, no entries, no sessions. -/
def initState : CoreState :=
  { descriptors := fun _ => none, entries := fun _ => none,
    live := fun _ => none, sessions := [], nextEntryId := 0,
    nextSessionId := 0, prepareCalls := 0 }

/-- Modelled from the spec: the synchronous error taxonomy of the registry
surface (`DuplicatePath`, `UnknownPath`, `CapacityExceeded`). -/
inductive RegError where
  | duplicatePath : RegError
  | unknownPath : RegError
  | capacityExceeded : RegError
  deriving DecidableEq, Repr

/-- Modelled from the spec: `register(descriptor)` fails with `DuplicatePath`
if the path already exists, else installs the descriptor under its path. -/
def register (st : CoreState) (d : MediaDescriptor) : Except RegError CoreState :=
  match st.descriptors d.path with
  | some _ => .error .duplicatePath
  | none =>
      .ok { st with
            descriptors := fun p => if p = d.path then some d else st.descriptors p }

/-- Whether attaching so that the entry would hold `newCount` sessions stays
within the descriptor's `max_clients` limit. -/
def capacityOk (d : MediaDescriptor) (newCount : Nat) : Bool :=
  match d.max_clients with
  | none => true
  | some m => newCount ≤ m

/-- Number of active sessions bound to entry `i`. -/
def countBound (sessions : List (Nat × Nat)) (i : Nat) : Nat :=
  (sessions.filter (fun s => s.2 == i)).length

/-- First entry id bound to session id `sid`, if any. -/
def lookupSession : List (Nat × Nat) → Nat → Option Nat
  | [], _ => none
  | (s, i) :: rest, sid => if s = sid then some i else lookupSession rest sid

/-- Remove the first binding of session id `sid`. -/
def removeSession : List (Nat × Nat) → Nat → List (Nat × Nat)
  | [], _ => []
  | (s, i) :: rest, sid =>
      if s = sid then rest else (s, i) :: removeSession rest sid

/-- The state after creating a fresh `MediaEntry` for descriptor `d` with one
attached session: the entry is stored under the fresh id with refcount `1`,
the session is bound to it, one `prepare()` call is issued (the refcount
`0 → 1` transition), and — when `installLive` — the entry becomes the live
entry for the descriptor's path. -/
def freshState (st : CoreState) (d : MediaDescriptor) (installLive : Bool) :
    CoreState :=
  { st with
    entries := fun j =>
      if j = st.nextEntryId then some { path := d.path, refcount := 1 }
      else st.entries j,
    live :=
      if installLive then
        fun p => if p = d.path then some st.nextEntryId else st.live p
      else st.live,
    sessions := (st.nextSessionId, st.nextEntryId) :: st.sessions,
    nextEntryId := st.nextEntryId + 1,
    nextSessionId := st.nextSessionId + 1,
    prepareCalls := st.prepareCalls + 1 }

/-- The state after attaching one more session to the existing entry `i`
currently holding `e`: the entry's refcount is incremented and the new
session is bound to it (no new pipeline, no new `prepare()` call). -/
def attachState (st : CoreState) (i : Nat) (e : MediaEntry) : CoreState :=
  { st with
    entries := fun j =>
      if j = i then some { e with refcount := e.refcount + 1 }
      else st.entries j,
    sessions := (st.nextSessionId, i) :: st.sessions,
    nextSessionId := st.nextSessionId + 1 }

/-- Modelled from the spec: create a fresh `MediaEntry` for descriptor `d`,
attach one session to it (refcount `0 → 1` issues the single `prepare()`
call), and — for a shared descriptor — install it as the live entry for the
path.  Fails with `CapacityExceeded` when even one client exceeds the
limit. -/
def mkFresh (st : CoreState) (d : MediaDescriptor) (installLive : Bool) :
    Except RegError (Nat × Nat × CoreState) :=
  if capacityOk d 1 then
    .ok (st.nextSessionId, st.nextEntryId, freshState st d installLive)
  else .error .capacityExceeded

/-- Modelled from the spec: `create_session(path)` resolves the path through
the registry (`UnknownPath` when unregistered); for a shared descriptor it
returns the existing live entry if present — incrementing its refcount and
binding a new session to it — and otherwise atomically creates a new entry
and installs it as the live entry for the path; for a non-shared descriptor
it always creates a fresh entry, never installed in the shared slot.  The
attach respects `max_clients` (`CapacityExceeded`).  Returns the new session
id, the bound entry id, and the updated state. -/
def create_session (st : CoreState) (path : String) :
    Except RegError (Nat × Nat × CoreState) :=
  match st.descriptors path with
  | none => .error .unknownPath
  | some d =>
      if d.shared then
        match st.live path with
        | some i =>
            match st.entries i with
            | some e =>
                if capacityOk d (e.refcount + 1) then
                  .ok (st.nextSessionId, i, attachState st i e)
                else .error .capacityExceeded
            | none => mkFresh st d true
        | none => mkFresh st d true
      else
        mkFresh st d false

/-- Modelled from the spec: `close_session(sid)` detaches the session from
its bound entry exactly once (idempotent on an unknown/already-closed id) and
decrements the entry's refcount; when the refcount drops to `0` and no grace
period is configured the pipeline is torn down immediately: the entry is
destroyed and the registry's live slot for that path is cleared. -/
def close_session (st : CoreState) (sid : Nat) : CoreState :=
  match lookupSession st.sessions sid with
  | none => st
  | some i =>
      let sessions1 := removeSession st.sessions sid
      match st.entries i with
      | none => { st with sessions := sessions1 }
      | some e =>
          if e.refcount ≤ 1 then
            { st with
              sessions := sessions1,
              entries := fun j => if j = i then none else st.entries j,
              live := fun p =>
                match st.live p with
                | some j => if j = i then none else some j
                | none => none }
          else
            { st with
              sessions := sessions1,
              entries := fun j =>
                if j = i then some { e with refcount := e.refcount - 1 }
                else st.entries j }

/-- One Dispatcher-serialized operation against the core. -/
inductive Op where
  | reg : MediaDescriptor → Op
  | connect : String → Op
  | close : Nat → Op

/-- Apply one operation; a failed `register` or `create_session` leaves the
state unchanged (the error is reported to the caller). -/
def applyOp (st : CoreState) : Op → CoreState
  | .reg d =>
      match register st d with
      | .ok st1 => st1
      | .error _ => st
  | .connect p =>
      match create_session st p with
      | .ok (_, _, st1) => st1
      | .error _ => st
  | .close sid => close_session st sid

/-- Run a sequence of operations from a state. -/
def runOps (st : CoreState) (ops : List Op) : CoreState :=
  ops.foldl applyOp st

/-- The descriptor the program registers: the single mount point at path
`"/test"`, carrying the CLI launch string, configured shared, with no client
limit (`main.rs` sets none). -/
def programDescriptor (launch : String) : MediaDescriptor :=
  { path := "/test", launch_spec := launch, shared := true, max_clients := none }

/-- `n` sessions racing to resolve path `p`, serialized by the Dispatcher:
each caller performs `create_session`; the list collects the entry id each
successful caller observes. -/
def raceResolve (st : CoreState) (p : String) : Nat → List Nat × CoreState
  | 0 => ([], st)
  | n + 1 =>
      match create_session st p with
      | .ok (_, i, st1) =>
          let rest := raceResolve st1 p n
          (i :: rest.1, rest.2)
      | .error _ => raceResolve st p n

/-- The state invariants of the core, from the specification: every entry's
refcount equals the number of sessions currently bound to it; entry ids at or
above the fresh counter are unused; sessions are only bound to existing
entries; a live slot points to an existing entry for that path; a registered
descriptor is keyed by its own path. -/
structure Inv (st : CoreState) : Prop where
  refcount_eq : ∀ i e, st.entries i = some e →
    e.refcount = countBound st.sessions i
  fresh_entries : ∀ j, st.nextEntryId ≤ j → st.entries j = none
  sessions_bound : ∀ s i, (s, i) ∈ st.sessions → st.entries i ≠ none
  live_entry : ∀ p i, st.live p = some i →
    ∃ e, st.entries i = some e ∧ e.path = p
  desc_path : ∀ p d, st.descriptors p = some d → d.path = p

/-- The operation sequence of the spec's shared-path scenario: register the
program's `"/test"` descriptor, then two sessions resolve `"/test"`. -/
def demoOps : List Op :=
  [Op.reg (programDescriptor "testsrc"), Op.connect "/test",
   Op.connect "/test"]

end Core

namespace GstCamera

/-- Claim C9: on the argument-count-mismatch path `main_loop` indexes
`args[0]` to build the usage message, so for an empty argument vector
`main_loop` panics instead of returning a usage error. -/
theorem C9_empty_args_panics (env : Env) :
    main_loop [] env = (RunOutcome.panicked, []) := rfl

/-- Claim C3, counterexample: the empty argument vector has length different
from two, yet `main_loop` does not return a usage error on it — it panics. -/
theorem C3_counterexample :
    isUsageError (main_loop [] envAllOk).1 = false ∧
    main_loop [] envAllOk = (RunOutcome.panicked, []) := ⟨rfl, rfl⟩

/-- Claim C3, amended: for every non-empty argument vector whose length
differs from two, `main_loop` returns the usage error built from `args[0]`
with an empty trace — before constructing the server, the main loop, or any
mount point. -/
theorem C3_usage_error (args : List String) (env : Env)
    (hne : args ≠ []) (hlen : args.length ≠ 2) :
    (main_loop args env).1 = RunOutcome.err (AppError.usageError (args.head hne)) ∧
    (main_loop args env).2 = [] := by
  cases args with
  | nil => exact absurd rfl hne
  | cons a rest =>
    cases rest with
    | nil => exact ⟨rfl, rfl⟩
    | cons b rest2 =>
      cases rest2 with
      | nil => simp at hlen
      | cons c rest3 => exact ⟨rfl, rfl⟩

/-- Witness for `C3_usage_error` at the one-argument vector `["prog"]`. -/
theorem C3_usage_error_witness :
    (main_loop ["prog"] envAllOk).1 =
      RunOutcome.err (AppError.usageError "prog") ∧
    (main_loop ["prog"] envAllOk).2 = [] :=
  C3_usage_error ["prog"] envAllOk (by simp) (by simp)

/-- Claim C1, counterexample: a run with a single argument is an
argument-count mismatch; the process prints the usage error message but then
exits with code `0`, not with a non-zero code as the claim states. -/
theorem C1_counterexample :
    main ["prog"] envAllOk =
      ProcResult.exit 0 ["Error! Usage: prog LAUNCH_LINE"] ∧
    failsNonzeroWithMessage (main ["prog"] envAllOk) = false := by
  constructor
  · rfl
  · rfl

/-- Claim C1, amended: every run that does not panic exits with code `0`:
a clean shutdown exits `0` with nothing on stderr, while an argument-count
mismatch and a mount-point acquisition failure print an error message to
stderr and still exit `0`. -/
theorem C1_exit_behavior (args : List String) (env : Env) :
    ((example_main args env).1 = RunOutcome.ok →
      main args env = ProcResult.exit 0 []) ∧
    (args ≠ [] → args.length ≠ 2 → env.gstInitOk = true →
      main args env =
        ProcResult.exit 0 ["Error! " ++ ("Usage: " ++ args.headI ++ " LAUNCH_LINE")]) ∧
    (args.length = 2 → env.gstInitOk = true → env.mountPointsOk = false →
      main args env = ProcResult.exit 0 ["Error! Could not get mount points"]) := by
  refine ⟨fun hok => ?_, fun hne hlen hinit => ?_, fun hlen hinit hmp => ?_⟩
  · simp only [main, hok]
  · cases args with
    | nil => exact absurd rfl hne
    | cons a rest =>
      cases rest with
      | nil =>
        simp only [main, example_main, hinit, if_true, main_loop]
        rfl
      | cons b rest2 =>
        cases rest2 with
        | nil => simp at hlen
        | cons c rest3 =>
          simp only [main, example_main, hinit, if_true, main_loop]
          rfl
  · cases args with
    | nil => simp at hlen
    | cons a rest =>
      cases rest with
      | nil => simp at hlen
      | cons b rest2 =>
        cases rest2 with
        | cons c rest3 => simp at hlen
        | nil =>
          simp only [main, example_main, hinit, if_true, main_loop, hmp,
            Bool.false_eq_true, if_false]
          rfl

/-- Witness for `C1_exit_behavior`: at the one-argument vector `["prog"]` in
the all-succeeding environment, the argument-count-mismatch clause applies. -/
theorem C1_exit_behavior_witness :
    main ["prog"] envAllOk =
      ProcResult.exit 0 ["Error! " ++ ("Usage: " ++ "prog" ++ " LAUNCH_LINE")] :=
  (C1_exit_behavior ["prog"] envAllOk).2.1 (by simp) (by simp) rfl

/-- Claim C4: in every run the trace carries at most one `add_factory`
registration and it is at path `"/test"`; and in every run that completes
startup (two arguments, mount points acquired) exactly the one registration
at `"/test"` is performed. -/
theorem C4_single_mount_point (args : List String) (env : Env) :
    (addFactoryPaths (main_loop args env).2 = [] ∨
     addFactoryPaths (main_loop args env).2 = ["/test"]) ∧
    (args.length = 2 → env.mountPointsOk = true →
      addFactoryPaths (main_loop args env).2 = ["/test"]) := by
  cases args with
  | nil => exact ⟨Or.inl rfl, fun hlen _ => by simp at hlen⟩
  | cons a rest =>
    cases rest with
    | nil => exact ⟨Or.inl rfl, fun hlen _ => by simp at hlen⟩
    | cons b rest2 =>
      cases rest2 with
      | cons c rest3 => exact ⟨Or.inl rfl, fun hlen _ => by simp at hlen⟩
      | nil =>
        cases hmp : env.mountPointsOk with
        | false =>
          refine ⟨Or.inl ?_, fun _ hmp2 => by simp at hmp2⟩
          simp only [main_loop, hmp, Bool.false_eq_true, if_false]
          rfl
        | true =>
          cases hat : env.attachOk with
          | true =>
            refine ⟨Or.inr ?_, fun _ _ => ?_⟩ <;>
              · simp only [main_loop, hmp, hat, if_true]
                rfl
          | false =>
            refine ⟨Or.inr ?_, fun _ _ => ?_⟩ <;>
              · simp only [main_loop, hmp, hat, if_true, Bool.false_eq_true,
                  if_false]
                rfl

/-- Witness for `C4_single_mount_point` at a concrete two-argument run. -/
theorem C4_single_mount_point_witness :
    addFactoryPaths (main_loop ["prog", "testsrc"] envAllOk).2 = ["/test"] :=
  (C4_single_mount_point ["prog", "testsrc"] envAllOk).2 rfl rfl

/-- Claim C5: for every argument vector of length two, the pipeline
description handed to `set_launch` is exactly `args[1]`, unmodified: on runs
that reach the factory configuration the trace's `set_launch` strings are
`[args[1]]`, and no other `set_launch` string ever appears. -/
theorem C5_launch_passthrough (a0 a1 : String) (env : Env) :
    (env.mountPointsOk = true →
      setLaunchStrings (main_loop [a0, a1] env).2 = [a1]) ∧
    (env.mountPointsOk = false →
      setLaunchStrings (main_loop [a0, a1] env).2 = []) := by
  refine ⟨fun hmp => ?_, fun hmp => ?_⟩
  · cases hat : env.attachOk with
    | true =>
      simp only [main_loop, hmp, hat, if_true]
      rfl
    | false =>
      simp only [main_loop, hmp, hat, if_true, Bool.false_eq_true, if_false]
      rfl
  · simp only [main_loop, hmp, Bool.false_eq_true, if_false]
    rfl

/-- Witness for `C5_launch_passthrough` at a concrete two-argument run. -/
theorem C5_launch_passthrough_witness :
    setLaunchStrings (main_loop ["prog", "videotestsrc ! fakesink"] envAllOk).2 =
      ["videotestsrc ! fakesink"] :=
  (C5_launch_passthrough "prog" "videotestsrc ! fakesink" envAllOk).1 rfl

/-- Claim C6: when the mount points cannot be acquired on a two-argument run,
`main_loop` returns the `NoMountPoints` error, whose message is
`"Could not get mount points"`, and the trace contains no factory creation,
no server attach, and no main-loop run. -/
theorem C6_no_mount_points (a0 a1 : String) (env : Env)
    (hmp : env.mountPointsOk = false) :
    (main_loop [a0, a1] env).1 = RunOutcome.err AppError.noMountPoints ∧
    AppError.noMountPoints.display = "Could not get mount points" ∧
    Event.createFactory ∉ (main_loop [a0, a1] env).2 ∧
    Event.attachServer true ∉ (main_loop [a0, a1] env).2 ∧
    Event.attachServer false ∉ (main_loop [a0, a1] env).2 ∧
    Event.runMainLoop ∉ (main_loop [a0, a1] env).2 := by
  have htr : main_loop [a0, a1] env =
      (.err .noMountPoints,
       [Event.createMainLoop, Event.createServer, Event.getMountPoints false]) := by
    simp only [main_loop, hmp, Bool.false_eq_true, if_false]
  rw [htr]
  refine ⟨rfl, rfl, ?_, ?_, ?_, ?_⟩ <;> decide

/-- Witness for `C6_no_mount_points` in an environment without mount points. -/
theorem C6_no_mount_points_witness :
    (main_loop ["prog", "testsrc"]
        { envAllOk with mountPointsOk := false }).1 =
      RunOutcome.err AppError.noMountPoints ∧
    AppError.noMountPoints.display = "Could not get mount points" :=
  ⟨(C6_no_mount_points "prog" "testsrc"
      { envAllOk with mountPointsOk := false } rfl).1,
   (C6_no_mount_points "prog" "testsrc"
      { envAllOk with mountPointsOk := false } rfl).2.1⟩

/-- Claim C10: on the success path the trace is exactly the fixed sequence in
which the server is attached and the `Stream ready` line is printed before
the main loop runs, and the attach source id is removed only after the main
loop returns — never while it is running. -/
theorem C10_success_ordering (a0 a1 : String) (env : Env)
    (hmp : env.mountPointsOk = true) (hat : env.attachOk = true) :
    (main_loop [a0, a1] env).2 =
      [Event.createMainLoop, Event.createServer, Event.getMountPoints true,
       Event.createFactory, Event.setLaunch a1, Event.setShared true,
       Event.addFactory "/test", Event.attachServer true,
       Event.printStreamReady, Event.runMainLoop, Event.removeAttachId] ∧
    occursBefore (main_loop [a0, a1] env).2 (Event.attachServer true)
      Event.runMainLoop ∧
    occursBefore (main_loop [a0, a1] env).2 Event.printStreamReady
      Event.runMainLoop ∧
    occursBefore (main_loop [a0, a1] env).2 Event.runMainLoop
      Event.removeAttachId := by
  have htr : (main_loop [a0, a1] env).2 =
      [Event.createMainLoop, Event.createServer, Event.getMountPoints true,
       Event.createFactory, Event.setLaunch a1, Event.setShared true,
       Event.addFactory "/test", Event.attachServer true,
       Event.printStreamReady, Event.runMainLoop, Event.removeAttachId] := by
    simp only [main_loop, hmp, hat, if_true]
  rw [htr]
  exact ⟨rfl,
    ⟨7, 9, by omega, rfl, rfl⟩,
    ⟨8, 9, by omega, rfl, rfl⟩,
    ⟨9, 10, by omega, rfl, rfl⟩⟩

/-- Witness for `C10_success_ordering` on a concrete successful run. -/
theorem C10_success_ordering_witness :
    (main_loop ["prog", "testsrc"] envAllOk).2 =
      [Event.createMainLoop, Event.createServer, Event.getMountPoints true,
       Event.createFactory, Event.setLaunch "testsrc", Event.setShared true,
       Event.addFactory "/test", Event.attachServer true,
       Event.printStreamReady, Event.runMainLoop, Event.removeAttachId] :=
  (C10_success_ordering "prog" "testsrc" envAllOk rfl rfl).1

end GstCamera

namespace Core

theorem countBound_cons (s i j : Nat) (l : List (Nat × Nat)) :
    countBound ((s, i) :: l) j = (if i = j then 1 else 0) + countBound l j := by
  by_cases h : i = j
  · subst h
    simp only [countBound, List.filter_cons, beq_self_eq_true, if_pos rfl,
      List.length_cons, if_true]
    omega
  · simp [countBound, List.filter_cons, h]

theorem countBound_eq_zero (l : List (Nat × Nat)) (i : Nat)
    (h : ∀ s, (s, i) ∉ l) : countBound l i = 0 := by
  induction l with
  | nil => rfl
  | cons hd tl ih =>
    obtain ⟨s, j⟩ := hd
    have hji : j ≠ i := by
      intro hji
      exact h s (by rw [hji]; exact List.mem_cons_self _ _)
    rw [countBound_cons, if_neg hji]
    have := ih fun s2 hmem => h s2 (List.mem_cons_of_mem _ hmem)
    omega

theorem mem_countBound_pos (l : List (Nat × Nat)) (s i : Nat)
    (h : (s, i) ∈ l) : 0 < countBound l i := by
  induction l with
  | nil => cases h
  | cons hd tl ih =>
    obtain ⟨s2, j⟩ := hd
    rcases List.mem_cons.mp h with h1 | h2
    · injection h1 with h1a h1b
      subst h1b
      rw [countBound_cons, if_pos rfl]
      omega
    · rw [countBound_cons]
      have := ih h2
      omega

theorem lookupSession_mem (l : List (Nat × Nat)) (sid i : Nat)
    (h : lookupSession l sid = some i) : (sid, i) ∈ l := by
  induction l with
  | nil => cases h
  | cons hd tl ih =>
    obtain ⟨s, j⟩ := hd
    by_cases hs : s = sid
    · subst hs
      simp only [lookupSession, if_pos rfl] at h
      cases h
      exact List.mem_cons_self _ _
    · simp only [lookupSession, if_neg hs] at h
      exact List.mem_cons_of_mem _ (ih h)

theorem removeSession_subset (l : List (Nat × Nat)) (sid : Nat) (x : Nat × Nat)
    (h : x ∈ removeSession l sid) : x ∈ l := by
  induction l with
  | nil => exact h
  | cons hd tl ih =>
    obtain ⟨s, j⟩ := hd
    by_cases hs : s = sid
    · simp only [removeSession, if_pos hs] at h
      exact List.mem_cons_of_mem _ h
    · simp only [removeSession, if_neg hs] at h
      rcases List.mem_cons.mp h with h1 | h2
      · exact List.mem_cons.mpr (Or.inl h1)
      · exact List.mem_cons_of_mem _ (ih h2)

theorem countBound_removeSession (l : List (Nat × Nat)) (sid i : Nat)
    (h : lookupSession l sid = some i) :
    countBound (removeSession l sid) i + 1 = countBound l i := by
  induction l with
  | nil => cases h
  | cons hd tl ih =>
    obtain ⟨s, j⟩ := hd
    by_cases hs : s = sid
    · simp only [lookupSession, if_pos hs] at h
      cases h
      simp only [removeSession, if_pos hs]
      rw [countBound_cons, if_pos rfl]
      omega
    · simp only [lookupSession, if_neg hs] at h
      simp only [removeSession, if_neg hs]
      rw [countBound_cons, countBound_cons]
      have := ih h
      omega

theorem countBound_removeSession_ne (l : List (Nat × Nat)) (sid i k : Nat)
    (h : lookupSession l sid = some i) (hk : k ≠ i) :
    countBound (removeSession l sid) k = countBound l k := by
  induction l with
  | nil => cases h
  | cons hd tl ih =>
    obtain ⟨s, j⟩ := hd
    by_cases hs : s = sid
    · simp only [lookupSession, if_pos hs] at h
      cases h
      simp only [removeSession, if_pos hs]
      rw [countBound_cons, if_neg fun hjk => hk (hjk.symm)]
      omega
    · simp only [lookupSession, if_neg hs] at h
      simp only [removeSession, if_neg hs]
      rw [countBound_cons, countBound_cons, ih h]

theorem inv_init : Inv initState := by
  constructor
  · intro i e he
    cases he
  · intro j _
    rfl
  · intro s i hmem
    cases hmem
  · intro p i hl
    cases hl
  · intro p d hd
    cases hd

theorem entry_lt {st : CoreState} (hinv : Inv st) {i : Nat} {e : MediaEntry}
    (h : st.entries i = some e) : i < st.nextEntryId := by
  by_contra hge
  rw [hinv.fresh_entries i (by omega)] at h
  cases h

theorem inv_register {st st' : CoreState} {d : MediaDescriptor}
    (hinv : Inv st) (h : register st d = Except.ok st') : Inv st' := by
  unfold register at h
  cases hd : st.descriptors d.path with
  | some d2 => rw [hd] at h; cases h
  | none =>
    rw [hd] at h
    cases h
    constructor
    · exact hinv.refcount_eq
    · exact hinv.fresh_entries
    · exact hinv.sessions_bound
    · exact hinv.live_entry
    · intro p d2 hpd
      dsimp only at hpd
      split at hpd
      next hp =>
        cases hpd
        exact hp.symm
      next hp => exact hinv.desc_path p d2 hpd

theorem inv_freshState {st : CoreState} (hinv : Inv st) (d : MediaDescriptor)
    (installLive : Bool) : Inv (freshState st d installLive) := by
  have hcount0 : countBound st.sessions st.nextEntryId = 0 := by
    refine countBound_eq_zero _ _ fun s hmem => ?_
    exact (hinv.sessions_bound s _ hmem) (hinv.fresh_entries _ le_rfl)
  constructor
  · intro j e he
    dsimp only [freshState] at he ⊢
    split at he
    next hj =>
      cases he
      subst hj
      rw [countBound_cons, if_pos rfl, hcount0]
    next hj =>
      rw [countBound_cons, if_neg fun hNj => hj hNj.symm]
      have := hinv.refcount_eq j e he
      omega
  · intro j hj
    dsimp only [freshState] at hj ⊢
    rw [if_neg (by omega)]
    exact hinv.fresh_entries j (by omega)
  · intro s j hmem
    dsimp only [freshState] at hmem ⊢
    rcases List.mem_cons.mp hmem with h1 | h2
    · injection h1 with h1a h1b
      subst h1b
      rw [if_pos rfl]
      simp
    · by_cases hj : j = st.nextEntryId
      · rw [if_pos hj]
        simp
      · rw [if_neg hj]
        exact hinv.sessions_bound s j h2
  · intro p j hl
    dsimp only [freshState] at hl ⊢
    cases installLive with
    | false =>
      obtain ⟨e, he, hep⟩ := hinv.live_entry p j hl
      have hlt : j < st.nextEntryId := entry_lt hinv he
      refine ⟨e, ?_, hep⟩
      rw [if_neg (by omega)]
      exact he
    | true =>
      have hl2 :
          (if p = d.path then some st.nextEntryId else st.live p) = some j := hl
      split at hl2
      next hp =>
        cases hl2
        refine ⟨{ path := d.path, refcount := 1 }, ?_, hp.symm⟩
        rw [if_pos rfl]
      next hp =>
        obtain ⟨e, he, hep⟩ := hinv.live_entry p j hl2
        have hlt : j < st.nextEntryId := entry_lt hinv he
        refine ⟨e, ?_, hep⟩
        rw [if_neg (by omega)]
        exact he
  · intro p d2 hpd
    exact hinv.desc_path p d2 hpd

theorem inv_attachState {st : CoreState} {i : Nat} {e : MediaEntry}
    (hinv : Inv st) (hent : st.entries i = some e) : Inv (attachState st i e) := by
  have hlt : i < st.nextEntryId := entry_lt hinv hent
  constructor
  · intro j e2 he2
    dsimp only [attachState] at he2 ⊢
    split at he2
    next hj =>
      cases he2
      subst hj
      rw [countBound_cons, if_pos rfl]
      have := hinv.refcount_eq j e hent
      dsimp only
      omega
    next hj =>
      rw [countBound_cons, if_neg fun hij => hj hij.symm]
      have := hinv.refcount_eq j e2 he2
      omega
  · intro j hj
    dsimp only [attachState] at hj ⊢
    rw [if_neg (by omega)]
    exact hinv.fresh_entries j (by omega)
  · intro s j hmem
    dsimp only [attachState] at hmem ⊢
    rcases List.mem_cons.mp hmem with h1 | h2
    · injection h1 with h1a h1b
      subst h1b
      rw [if_pos rfl]
      simp
    · by_cases hj : j = i
      · rw [if_pos hj]
        simp
      · rw [if_neg hj]
        exact hinv.sessions_bound s j h2
  · intro p j hl
    dsimp only [attachState] at hl ⊢
    obtain ⟨e2, he2, hep⟩ := hinv.live_entry p j hl
    by_cases hj : j = i
    · subst hj
      rw [hent] at he2
      cases he2
      refine ⟨{ e with refcount := e.refcount + 1 }, ?_, hep⟩
      rw [if_pos rfl]
    · refine ⟨e2, ?_, hep⟩
      rw [if_neg hj]
      exact he2
  · intro p d2 hpd
    exact hinv.desc_path p d2 hpd

theorem inv_create {st : CoreState} {p : String} {sid i : Nat}
    {st' : CoreState} (hinv : Inv st)
    (h : create_session st p = Except.ok (sid, i, st')) : Inv st' := by
  unfold create_session at h
  cases hd : st.descriptors p with
  | none => rw [hd] at h; cases h
  | some d =>
    rw [hd] at h
    dsimp only at h
    split at h
    · -- shared descriptor
      cases hl : st.live p with
      | some i0 =>
        rw [hl] at h
        dsimp only at h
        cases hent : st.entries i0 with
        | some e =>
          rw [hent] at h
          dsimp only at h
          split at h
          · cases h
            exact inv_attachState hinv hent
          · cases h
        | none =>
          obtain ⟨e, he, _⟩ := hinv.live_entry p i0 hl
          rw [hent] at he
          cases he
      | none =>
        rw [hl] at h
        dsimp only at h
        unfold mkFresh at h
        split at h
        · cases h
          exact inv_freshState hinv d true
        · cases h
    · -- non-shared descriptor
      unfold mkFresh at h
      split at h
      · cases h
        exact inv_freshState hinv d false
      · cases h

theorem inv_close {st : CoreState} (hinv : Inv st) (sid : Nat) :
    Inv (close_session st sid) := by
  unfold close_session
  cases hlk : lookupSession st.sessions sid with
  | none => exact hinv
  | some i =>
    have hmem : (sid, i) ∈ st.sessions := lookupSession_mem _ _ _ hlk
    dsimp only
    split
    next hent => exact absurd hent (hinv.sessions_bound sid i hmem)
    next e hent =>
      have hrc : e.refcount = countBound st.sessions i :=
        hinv.refcount_eq i e hent
      have hdec :
          countBound (removeSession st.sessions sid) i + 1 =
            countBound st.sessions i :=
        countBound_removeSession _ _ _ hlk
      split
      next hle =>
        -- refcount drops to 0: immediate teardown
        have h0 : countBound (removeSession st.sessions sid) i = 0 := by omega
        constructor
        · intro j e2 he2
          dsimp only at he2 ⊢
          split at he2
          next hj => cases he2
          next hj =>
            rw [countBound_removeSession_ne _ _ _ _ hlk hj]
            exact hinv.refcount_eq j e2 he2
        · intro j hj
          dsimp only at hj ⊢
          split
          · rfl
          · exact hinv.fresh_entries j hj
        · intro s j hmem2
          dsimp only at hmem2 ⊢
          by_cases hj : j = i
          · subst hj
            have := mem_countBound_pos _ s j hmem2
            omega
          · rw [if_neg hj]
            exact hinv.sessions_bound s j (removeSession_subset _ _ _ hmem2)
        · intro p j hl
          dsimp only at hl ⊢
          cases hlp : st.live p with
          | none => rw [hlp] at hl; cases hl
          | some j2 =>
            rw [hlp] at hl
            dsimp only at hl
            split at hl
            next hj2 => cases hl
            next hj2 =>
              injection hl with hlj
              subst hlj
              obtain ⟨e3, he3, hep⟩ := hinv.live_entry p j2 hlp
              refine ⟨e3, ?_, hep⟩
              rw [if_neg hj2]
              exact he3
        · intro p d2 hpd
          exact hinv.desc_path p d2 hpd
      next hgt =>
        -- refcount stays positive: decrement
        constructor
        · intro j e2 he2
          dsimp only at he2 ⊢
          split at he2
          next hj =>
            cases he2
            subst hj
            dsimp only
            omega
          next hj =>
            rw [countBound_removeSession_ne _ _ _ _ hlk hj]
            exact hinv.refcount_eq j e2 he2
        · intro j hj
          dsimp only at hj ⊢
          rw [if_neg (by have := entry_lt hinv hent; omega)]
          exact hinv.fresh_entries j hj
        · intro s j hmem2
          dsimp only at hmem2 ⊢
          by_cases hj : j = i
          · rw [if_pos hj]
            simp
          · rw [if_neg hj]
            exact hinv.sessions_bound s j (removeSession_subset _ _ _ hmem2)
        · intro p j hl
          dsimp only at hl ⊢
          obtain ⟨e3, he3, hep⟩ := hinv.live_entry p j hl
          by_cases hj : j = i
          · subst hj
            rw [hent] at he3
            cases he3
            refine ⟨{ e with refcount := e.refcount - 1 }, ?_, hep⟩
            rw [if_pos rfl]
          · refine ⟨e3, ?_, hep⟩
            rw [if_neg hj]
            exact he3
        · intro p d2 hpd
          exact hinv.desc_path p d2 hpd

theorem inv_applyOp {st : CoreState} (hinv : Inv st) (op : Op) :
    Inv (applyOp st op) := by
  cases op with
  | reg d =>
    dsimp only [applyOp]
    cases hr : register st d with
    | ok st1 => exact inv_register hinv hr
    | error _ => exact hinv
  | connect p =>
    dsimp only [applyOp]
    cases hc : create_session st p with
    | ok a =>
      obtain ⟨sid, i, st1⟩ := a
      exact inv_create hinv hc
    | error _ => exact hinv
  | close sid => exact inv_close hinv sid

theorem inv_runOps {st : CoreState} (hinv : Inv st) (ops : List Op) :
    Inv (runOps st ops) := by
  induction ops generalizing st with
  | nil => exact hinv
  | cons op rest ih => exact ih (inv_applyOp hinv op)

theorem raceResolve_live (p : String) (d : MediaDescriptor) (n : Nat) :
    ∀ (st : CoreState) (i : Nat) (e : MediaEntry),
      st.descriptors p = some d → d.shared = true → d.max_clients = none →
      st.live p = some i → st.entries i = some e →
      (raceResolve st p n).1 = List.replicate n i ∧
      (raceResolve st p n).2.nextEntryId = st.nextEntryId := by
  induction n with
  | zero =>
    intro st i e _ _ _ _ _
    exact ⟨rfl, rfl⟩
  | succ m ih =>
    intro st i e hd hsh hmax hlive hent
    have hcap : capacityOk d (e.refcount + 1) = true := by
      unfold capacityOk
      rw [hmax]
    have hcs : create_session st p =
        Except.ok (st.nextSessionId, i, attachState st i e) := by
      unfold create_session
      rw [hd]
      dsimp only
      rw [if_pos hsh, hlive]
      dsimp only
      rw [hent]
      dsimp only
      rw [if_pos hcap]
    have hent2 : (attachState st i e).entries i =
        some { e with refcount := e.refcount + 1 } := by
      have hre : (attachState st i e).entries i =
          (if i = i then some { e with refcount := e.refcount + 1 }
           else st.entries i) := rfl
      rw [hre, if_pos rfl]
    have hih := ih (attachState st i e) i { e with refcount := e.refcount + 1 }
      hd hsh hmax hlive hent2
    refine ⟨?_, ?_⟩
    · simp only [raceResolve]
      rw [hcs]
      dsimp only
      rw [hih.1, List.replicate_succ]
    · simp only [raceResolve]
      rw [hcs]
      dsimp only
      rw [hih.2]
      rfl

/-- Claim C8: for every sequence of Dispatcher-serialized operations — in
particular after every attach (`create_session`) and detach
(`close_session`) — every live entry's refcount equals the number of
sessions currently bound to that entry. -/
theorem C8_refcount_invariant (ops : List Op) (i : Nat) (e : MediaEntry)
    (h : (runOps initState ops).entries i = some e) :
    e.refcount = countBound (runOps initState ops).sessions i :=
  (inv_runOps inv_init ops).refcount_eq i e h

/-- Witness for `C8_refcount_invariant`: after registering `"/test"` and
attaching two sessions, the single entry's refcount `2` equals the number of
bound sessions. -/
theorem C8_refcount_invariant_witness :
    (runOps initState demoOps).entries 0 =
      some { path := "/test", refcount := 2 } ∧
    ({ path := "/test", refcount := 2 } : MediaEntry).refcount =
      countBound (runOps initState demoOps).sessions 0 :=
  ⟨rfl, C8_refcount_invariant demoOps 0 { path := "/test", refcount := 2 } rfl⟩

/-- Claim C7: for any number of `resolve_or_create` callers racing on a
shared path (serialized by the Dispatcher), starting with no live entry and
no detach occurring, every caller observes the identical `MediaEntry`
(the one entry id) and exactly one entry is ever created. -/
theorem C7_race_single_instance (st : CoreState) (p : String)
    (d : MediaDescriptor) (n : Nat)
    (hd : st.descriptors p = some d) (hsh : d.shared = true)
    (hmax : d.max_clients = none) (hdp : d.path = p)
    (hlive : st.live p = none) :
    (raceResolve st p (n + 1)).1 = List.replicate (n + 1) st.nextEntryId ∧
    (raceResolve st p (n + 1)).2.nextEntryId = st.nextEntryId + 1 := by
  have hcap : capacityOk d 1 = true := by
    unfold capacityOk
    rw [hmax]
  have hcs : create_session st p =
      Except.ok (st.nextSessionId, st.nextEntryId, freshState st d true) := by
    unfold create_session
    rw [hd]
    dsimp only
    rw [if_pos hsh, hlive]
    dsimp only
    unfold mkFresh
    rw [if_pos hcap]
  have hent : (freshState st d true).entries st.nextEntryId =
      some { path := d.path, refcount := 1 } := by
    have hre : (freshState st d true).entries st.nextEntryId =
        (if st.nextEntryId = st.nextEntryId
         then some { path := d.path, refcount := 1 }
         else st.entries st.nextEntryId) := rfl
    rw [hre, if_pos rfl]
  have hlive2 : (freshState st d true).live p = some st.nextEntryId := by
    have hre : (freshState st d true).live p =
        (if p = d.path then some st.nextEntryId else st.live p) := rfl
    rw [hre, if_pos hdp.symm]
  have hih := raceResolve_live p d n (freshState st d true) st.nextEntryId
    { path := d.path, refcount := 1 } hd hsh hmax hlive2 hent
  refine ⟨?_, ?_⟩
  · simp only [raceResolve]
    rw [hcs]
    dsimp only
    rw [hih.1, List.replicate_succ]
  · simp only [raceResolve]
    rw [hcs]
    dsimp only
    rw [hih.2]
    rfl

/-- Witness for `C7_race_single_instance`: two callers racing on the freshly
registered `"/test"` both observe entry `0`, and one entry is created. -/
theorem C7_race_single_instance_witness :
    (raceResolve (applyOp initState (Op.reg (programDescriptor "testsrc")))
        "/test" 2).1 = List.replicate 2 0 ∧
    (raceResolve (applyOp initState (Op.reg (programDescriptor "testsrc")))
        "/test" 2).2.nextEntryId = 0 + 1 :=
  C7_race_single_instance
    (applyOp initState (Op.reg (programDescriptor "testsrc"))) "/test"
    (programDescriptor "testsrc") 1 rfl rfl rfl rfl rfl

/-- Claim C2: on every two-argument run that acquires the mount points the
program configures its single mount point as shared (`set_shared(true)`
appears in the trace, and the only `add_factory` registration is at
`"/test"`); in the spec-modelled registry, two sessions resolving the
registered shared `"/test"` descriptor yield exactly one `MediaEntry`
(one entry id allocated), with refcount `2`, and a single `prepare()` call —
one pipeline instance serves both clients. -/
theorem C2_shared_single_pipeline (a0 a1 : String) (env : GstCamera.Env)
    (hmp : env.mountPointsOk = true) :
    GstCamera.Event.setShared true ∈ (GstCamera.main_loop [a0, a1] env).2 ∧
    GstCamera.addFactoryPaths (GstCamera.main_loop [a0, a1] env).2 = ["/test"] ∧
    (runOps initState
        [Op.reg (programDescriptor a1), Op.connect "/test",
         Op.connect "/test"]).nextEntryId = 1 ∧
    (runOps initState
        [Op.reg (programDescriptor a1), Op.connect "/test",
         Op.connect "/test"]).entries 0 =
      some { path := "/test", refcount := 2 } ∧
    (runOps initState
        [Op.reg (programDescriptor a1), Op.connect "/test",
         Op.connect "/test"]).prepareCalls = 1 := by
  cases hat : env.attachOk with
  | true =>
    have htr : (GstCamera.main_loop [a0, a1] env).2 =
        [GstCamera.Event.createMainLoop, GstCamera.Event.createServer,
         GstCamera.Event.getMountPoints true, GstCamera.Event.createFactory,
         GstCamera.Event.setLaunch a1, GstCamera.Event.setShared true,
         GstCamera.Event.addFactory "/test", GstCamera.Event.attachServer true,
         GstCamera.Event.printStreamReady, GstCamera.Event.runMainLoop,
         GstCamera.Event.removeAttachId] := by
      simp only [GstCamera.main_loop, hmp, hat, if_true]
    refine ⟨?_, ?_, rfl, rfl, rfl⟩
    · rw [htr]
      exact List.Mem.tail _ (List.Mem.tail _ (List.Mem.tail _ (List.Mem.tail _
        (List.Mem.tail _ (List.Mem.head _)))))
    · rw [htr]
      rfl
  | false =>
    have htr : (GstCamera.main_loop [a0, a1] env).2 =
        [GstCamera.Event.createMainLoop, GstCamera.Event.createServer,
         GstCamera.Event.getMountPoints true, GstCamera.Event.createFactory,
         GstCamera.Event.setLaunch a1, GstCamera.Event.setShared true,
         GstCamera.Event.addFactory "/test",
         GstCamera.Event.attachServer false] := by
      simp only [GstCamera.main_loop, hmp, hat, Bool.false_eq_true, if_true,
        if_false]
    refine ⟨?_, ?_, rfl, rfl, rfl⟩
    · rw [htr]
      exact List.Mem.tail _ (List.Mem.tail _ (List.Mem.tail _ (List.Mem.tail _
        (List.Mem.tail _ (List.Mem.head _)))))
    · rw [htr]
      rfl

/-- Witness for `C2_shared_single_pipeline` on a concrete run. -/
theorem C2_shared_single_pipeline_witness :
    GstCamera.Event.setShared true ∈
      (GstCamera.main_loop ["prog", "testsrc"] GstCamera.envAllOk).2 ∧
    (runOps initState
        [Op.reg (programDescriptor "testsrc"), Op.connect "/test",
         Op.connect "/test"]).entries 0 =
      some { path := "/test", refcount := 2 } :=
  ⟨(C2_shared_single_pipeline "prog" "testsrc" GstCamera.envAllOk rfl).1,
   (C2_shared_single_pipeline "prog" "testsrc" GstCamera.envAllOk rfl).2.2.2.1⟩

end Core
